import Mathlib

/-!
Verification development for the jiradisco project-tracking core.

The TypeScript source is embedded shallowly:

* A JavaScript `Date` is modelled at day granularity as an `Int` (days since
  the Unix epoch, 1970-01-01 = day 0); an *invalid* date (NaN timestamp) is
  modelled as `Option Int` with `none` for the invalid date.  The application
  treats all dates as local calendar days, so the day-granular model is exact
  for the derivation logic.  Where millisecond resolution matters (the
  multi-snapshot projector, which works on raw timestamps) dates are modelled
  as `Int` milliseconds instead.
* JavaScript numbers are modelled as exact rationals `ℚ`; `NaN` producing
  operations (`parseInt`, `parseFloat`, regex match failure) are modelled with
  `Option`, mirroring the `|| 0` / no-match defaults of the source.
* The external CSV decoder (PapaParse) and the regular-expression extraction
  over the `delivery status` free text are external inputs to the core: a row
  is modelled by the values those extractions produce (a match is `some n`
  with `n` the parsed number, a failed match is `none`), exactly the data the
  source reads out of them.
-/

/-! ### Calendar utility (src `dates.ts`)

`getDay()` of JavaScript: 0 = Sunday, …, 6 = Saturday.  Day 0 of the model
(1970-01-01) was a Thursday, hence the `+ 4` shift. -/

def dayOfWeek (d : Int) : Int := (d + 4) % 7

def isWeekday (d : Int) : Bool := dayOfWeek d != 0 && dayOfWeek d != 6

/-- One iteration of the `addWorkingDays` loop: advance one calendar day at a
time, skipping days whose `getDay()` is Saturday or Sunday, until a weekday is
reached (a weekend run is at most two days long, so three steps suffice). -/
def nextWorkingDay (d : Int) : Int :=
  if isWeekday (d + 1) then d + 1
  else if isWeekday (d + 2) then d + 2
  else d + 3

/-- The `while (count < Math.floor(days))` loop of `addWorkingDays`, counting
`n` working days forward from `d`. -/
def addWorkingDaysFrom (d : Int) : Nat → Int
  | 0 => d
  | n + 1 => addWorkingDaysFrom (nextWorkingDay d) n

/-- `addWorkingDays(startDate, days)` from `dates.ts`.  `days` is a JavaScript
number: `none` models `NaN`.  Returns `startDate` unchanged if `days` is NaN
or `≤ 0`; otherwise walks forward one calendar day at a time counting only
Monday–Friday days until the counter reaches `⌊days⌋`. -/
def addWorkingDays (startDate : Int) (days : Option ℚ) : Int :=
  match days with
  | none => startDate
  | some q => if q ≤ 0 then startDate else addWorkingDaysFrom startDate (Int.toNat ⌊q⌋)

/-- `calculateWorkingDays(startDate, endDate)` from `dates.ts`: the count of
Monday–Friday days in the inclusive range.  `none` models an invalid date;
returns 0 when either date is invalid or the end precedes the start. -/
def calculateWorkingDays (startDate endDate : Option Int) : Int :=
  match startDate, endDate with
  | some s, some e =>
    if e < s then 0
    else ((List.range (e - s + 1).toNat).countP (fun i => isWeekday (s + i)) : Nat)
  | _, _ => 0

/-! ### Record normalizer (src `csv.ts`, `parseCsvRowToInitiative`) -/

/-- One decoded CSV row, as `parseCsvRowToInitiative` reads it.

String fields hold the raw cell text (a missing key reads as `""` through the
`row[...] || ""` / `row[...] ? ... : ""` guards of the source).  The numeric
extractions performed by the source on the raw text are external primitives
(`parseInt`, regular-expression matching with `parseFloat`) and are modelled
by the value they produce:

* `estimate` is the result of `parseInt(row["estimate"], 10)`; `none` models
  `NaN` (parse failure).
* `todoMatch`, `inProgressMatch`, `doneMatch`, `totalMatch` are the numbers
  matched out of the `delivery status` text by the patterns
  `To Do: (N) of`, `In Progress: (N) of`, `Done: (N) of`,
  `of (N) story points`; `none` models a failed match (including the case of
  an empty `delivery status` text, which the source short-circuits to the
  same all-zero defaults).  A successful match of `\d+(\.\d+)?` is always a
  nonnegative decimal.
* `projectStart`, `projectTarget` are `new Date(row[...])` as day numbers,
  `none` modelling an invalid date. -/
structure CsvRow where
  summary : String
  status : String
  estimationStatus : String
  pmCustomer : String
  estimate : Option Int
  todoMatch : Option ℚ
  inProgressMatch : Option ℚ
  doneMatch : Option ℚ
  totalMatch : Option ℚ
  projectStart : Option Int
  projectTarget : Option Int
deriving Repr, DecidableEq, Inhabited

/-- The derived work-item snapshot (src `types.ts`).  `onTrackStatus` is
`Option ℚ` because the source value is `NaN` (modelled `none`) when the
target date is invalid and no forcing rule fires. -/
structure Initiative where
  name : String
  targetDate : Option Int
  workDays : ℚ
  totalWork : ℚ
  doneWork : ℚ
  projectedFinishDate : Int
  onTrackStatus : Option ℚ
  status : String
  customer : String
  percentComplete : ℚ
  expectedCompletion : ℚ
deriving Repr, DecidableEq, Inhabited

/-- `x.toFixed(2)` of JavaScript as comparable data: the integer nearest to
`100·|x|` (ties toward the larger integer, per the ECMAScript `toFixed`
algorithm) together with the sign, which `toFixed` prints (so `"-0.00"` and
`"0.00"` compare unequal). -/
def jsToFixed2 (x : ℚ) : Int × Bool := (round (100 * |x|), decide (x < 0))

/-- String equality of `a.toFixed(2)` and `b.toFixed(2)`. -/
def toFixed2Eq (a b : ℚ) : Bool := decide (jsToFixed2 a = jsToFixed2 b)

/-- `Math.max(0, Math.min(100, x))`. -/
def clamp0to100 (x : ℚ) : ℚ := max 0 (min 100 x)

/-- `parseCsvRowToInitiative(today, row)` from `csv.ts`, line for line.
`today` is a (valid) date, day-granular. -/
def parseCsvRowToInitiative (today : Int) (row : CsvRow) : Initiative :=
  let estimationStatus := row.estimationStatus.toLower
  let status := row.status.toLower
  -- parseInt(row["estimate"], 10) || 0 : NaN falls back to 0
  let estimate : Int := row.estimate.getD 0
  -- regex extraction defaults: an absent clause leaves the quantity at 0
  let todo : ℚ := row.todoMatch.getD 0
  let inProgress : ℚ := row.inProgressMatch.getD 0
  let doneWork : ℚ := row.doneMatch.getD 0
  let extractedTotal : ℚ := row.totalMatch.getD 0
  -- workDays / totalWork precedence
  let wdtw : ℚ × ℚ :=
    if estimationStatus = "not estimated" ∨ estimationStatus = "high level estimate" then
      ((estimate : ℚ), (estimate : ℚ))
    else if todo > 200 then
      ((calculateWorkingDays row.projectStart row.projectTarget : ℚ), extractedTotal)
    else
      (todo + (1/2) * inProgress, extractedTotal)
  let workDays : ℚ := wdtw.1
  let totalWork : ℚ := wdtw.2
  let percentComplete : ℚ :=
    clamp0to100
      (if totalWork > 0 then ((totalWork - workDays) / totalWork) * 100
       else if workDays = 0 then 100
       else 0)
  let targetDate := row.projectTarget
  let startDate := row.projectStart
  let expectedCompletion : ℚ :=
    match startDate, targetDate with
    | some s, some t =>
      let projectLengthInDays : Int := t - s
      if projectLengthInDays > 0 then
        clamp0to100 ((((today - s : Int) : ℚ) / ((projectLengthInDays : Int) : ℚ)) * 100)
      else if percentComplete = 100 then 100
      else if projectLengthInDays < 0 then 100
      else 0
    | _, _ => 0
  let projectedFinishDate : Int :=
    if doneWork > 0 then addWorkingDays today (some workDays)
    else
      let dateFromWorkDue := addWorkingDays today (some workDays)
      -- targetDate.getTime() || 0 : an invalid date's NaN falls back to 0
      max dateFromWorkDue (targetDate.getD 0)
  -- differenceInDays(targetDate, projectedFinishDate); NaN when targetDate invalid
  let onTrackStatus0 : Option ℚ :=
    targetDate.map (fun t => ((t - projectedFinishDate : Int) : ℚ))
  -- clamp: an initiative cannot be more early than the total length of the work
  let onTrackStatus1 : Option ℚ :=
    match onTrackStatus0 with
    | some v => some (if v > totalWork then totalWork else v)
    | none => none
  -- all work done: neither early nor late
  let onTrackStatus2 : Option ℚ :=
    if toFixed2Eq doneWork totalWork ∧ totalWork > 0 then some 0 else onTrackStatus1
  let onTrackStatus : Option ℚ :=
    if status.toLower = "awaiting requirements" then some 0 else onTrackStatus2
  { name := row.summary
    targetDate := targetDate
    workDays := workDays
    totalWork := totalWork
    doneWork := doneWork
    projectedFinishDate := projectedFinishDate
    onTrackStatus := onTrackStatus
    status := row.status
    customer := row.pmCustomer
    percentComplete := percentComplete
    expectedCompletion := expectedCompletion }

/-! ### Batch parser (src `csv.ts`, `parseCsvToInitiatives`)

`Papa.parse` is the external CSV decoder (out of scope per the input-table
contract): the function body is modelled over the decoder's output — an error
message list, an optional field-name list (headers trimmed and lower-cased by
the `transformHeader` option) and the decoded rows.  The `try { ... } catch`
around the per-row normalization is modelled by abstracting the row
normalizer as an `Except`-valued function: `.error` models a thrown
exception, which aborts the whole batch. -/

inductive ParseCsvToInitiativesResult where
  | success (initiatives : List Initiative)
  | error (error : String)
deriving Repr, DecidableEq

def isErrorResult : ParseCsvToInitiativesResult → Bool
  | .success _ => false
  | .error _ => true

/-- Output of `Papa.parse(csvString, {header: true, skipEmptyLines: true,
transformHeader: lower-case-trim})`: `results.errors` (as messages),
`results.meta.fields`, `results.data`. -/
structure PapaParseResult where
  errors : List String
  fields : Option (List String)
  data : List CsvRow
deriving Repr, Inhabited

def requiredColumns : List String :=
  ["summary", "project start", "project target", "delivery status",
   "estimation status", "estimate", "status", "pm customer"]

/-- `results.data.map(row => normalize(row))` under JavaScript exception
semantics: the first row whose normalization throws aborts the whole map. -/
def mapRowsExcept (normalize : CsvRow → Except String Initiative) :
    List CsvRow → Except String (List Initiative)
  | [] => .ok []
  | r :: rs =>
    match normalize r with
    | .error e => .error e
    | .ok i =>
      match mapRowsExcept normalize rs with
      | .error e => .error e
      | .ok is => .ok (i :: is)

/-- Body of `parseCsvToInitiatives`, generic in the row normalizer (see the
section comment: `.error` models a thrown exception caught by the
`try`/`catch`). -/
def parseCsvToInitiativesWith (normalize : CsvRow → Except String Initiative)
    (results : PapaParseResult) : ParseCsvToInitiativesResult :=
  if results.errors ≠ [] then
    .error ("Error parsing CSV: " ++ String.intercalate ", " results.errors)
  else
    match results.fields with
    | none => .error "Failed to parse headers in CSV"
    | some parsedHeaders =>
      let missingColumns := requiredColumns.filter (fun col => ¬ parsedHeaders.contains col)
      if results.data.length = 0 ∨ missingColumns.length > 0 then
        .error ("Invalid CSV format. Missing: [" ++ String.intercalate ", " missingColumns
          ++ "]. Found: [" ++ String.intercalate ", " parsedHeaders ++ "]")
      else
        match mapRowsExcept normalize results.data with
        | .error e => .error ("Error processing CSV data: " ++ e)
        | .ok initiatives =>
          -- drop rows with an empty name or an invalid target date
          -- (workDays, the third clause of the filter, is never NaN in the model)
          let filtered := initiatives.filter (fun i => i.name ≠ "" ∧ i.targetDate.isSome)
          .success (filtered.insertionSort
            (fun a b => a.targetDate.getD 0 ≤ b.targetDate.getD 0))

/-- `parseCsvToInitiatives(today, csvString)` with the decoder output as
input: every row is normalized by `parseCsvRowToInitiative` (which, being a
total function, never throws). -/
def parseCsvToInitiatives (today : Int) (results : PapaParseResult) :
    ParseCsvToInitiativesResult :=
  parseCsvToInitiativesWith (fun row => .ok (parseCsvRowToInitiative today row)) results

/-! ### Multi-snapshot projector (src `scope-tracking/page.tsx`)

Snapshots carry raw timestamps; dates here are `Int` milliseconds since the
epoch (`getTime()`).  `new Date(ms)` stores whole milliseconds; the projected
finish date is modelled as the exact rational millisecond value (sub-
millisecond truncation is below the model's resolution).  The JavaScript
`Array.prototype.sort` is stable; a stable sort for a total preorder key has a
unique result, so it is modelled by `List.insertionSort` (also stable). -/

structure ScopeDataPoint where
  date : Int
  totalScope : ℚ
  workDone : ℚ
deriving Repr, DecidableEq, Inhabited

structure FinishProjection where
  projectedFinishDate : ℚ
  workRatePerDay : ℚ
  remainingWork : ℚ
  daysRemaining : ℚ
  earliestDate : Int
  latestDate : Int
deriving Repr, DecidableEq, Inhabited

structure ScopeCreepResult where
  scopeChange : ℚ
  scopeChangePerDay : ℚ
  comparisonDate : Int
  latestDate : Int
  daysBetween : Int
deriving Repr, DecidableEq, Inhabited

def msPerDay : ℚ := 1000 * 60 * 60 * 24

/-- `[...scopeData].sort((a, b) => a.date.getTime() - b.date.getTime())`. -/
def sortByDate (scopeData : List ScopeDataPoint) : List ScopeDataPoint :=
  scopeData.insertionSort (fun a b => a.date ≤ b.date)

/-- Lines 204–237 of the page: the computation on the sorted snapshot list
(`earliest = sortedData[0]`, `latest = sortedData[len-1]`). -/
def projectionFromSorted (sortedData : List ScopeDataPoint) : Option FinishProjection :=
  let earliest := sortedData.headD default
  let latest := sortedData.getLastD default
  let daysBetween : ℚ := max 1 (((latest.date - earliest.date : Int) : ℚ) / msPerDay)
  let workDoneDifference := latest.workDone - earliest.workDone
  let workRatePerDay := workDoneDifference / daysBetween
  if workRatePerDay ≤ 0 then none
  else
    let remainingWork := latest.totalScope - latest.workDone
    let daysRemaining := remainingWork / workRatePerDay
    some
      { projectedFinishDate := (latest.date : ℚ) + daysRemaining * msPerDay
        workRatePerDay := workRatePerDay
        remainingWork := remainingWork
        daysRemaining := daysRemaining
        earliestDate := earliest.date
        latestDate := latest.date }

/-- `calculateProjectedFinishDate(scopeData)`. -/
def calculateProjectedFinishDate (scopeData : List ScopeDataPoint) : Option FinishProjection :=
  if scopeData.length < 2 then none
  else projectionFromSorted (sortByDate scopeData)

/-- Lines 247–274 of the page: the scope-creep computation on the sorted
snapshot list.  The `for (let i = length-2; i >= 0; i--) { if (date <=
fourteenDaysAgo) break }` scan is the first hit of a newest-first search over
the non-latest snapshots, defaulting to `sortedData[0]`. -/
def scopeCreepFromSorted (sortedData : List ScopeDataPoint) : Option ScopeCreepResult :=
  let latest := sortedData.getLastD default
  let fourteenDaysAgo : Int := latest.date - 14 * 24 * 60 * 60 * 1000
  let comparisonPoint :=
    (sortedData.dropLast.reverse.find? (fun point => point.date ≤ fourteenDaysAgo)).getD
      (sortedData.headD default)
  let scopeChange := latest.totalScope - comparisonPoint.totalScope
  let daysBetween : ℚ := max 1 (((latest.date - comparisonPoint.date : Int) : ℚ) / msPerDay)
  some
    { scopeChange := scopeChange
      scopeChangePerDay := scopeChange / daysBetween
      comparisonDate := comparisonPoint.date
      latestDate := latest.date
      daysBetween := round daysBetween }

/-- `calculateScopeCreep(scopeData)`. -/
def calculateScopeCreep (scopeData : List ScopeDataPoint) : Option ScopeCreepResult :=
  if scopeData.length < 2 then none
  else scopeCreepFromSorted (sortByDate scopeData)

/-! ### Civil calendar (month of a day number)

`format(date, "yyyy-MM")` and `format(parseISO(key), "MMM yy")` of date-fns
need the Gregorian year and month of a day number.  `civilFromDays` is the
standard proleptic-Gregorian conversion (era = 400-year cycle of 146097
days); the model covers days from 0000-03-01 on, which contains every date
the application handles.  A month key `"yyyy-MM"` is represented by the
integer `12·year + (month−1)`; for the representable years this is order-
isomorphic to the lexicographic sort of the key strings that the source
applies. -/

/-- Day number (1970-01-01 = 0) to (year, month 1–12, day 1–31). -/
def civilFromDays (z : Int) : Int × Nat × Nat :=
  let doe := (z + 719468).toNat
  let era := doe / 146097
  let d := doe % 146097
  let yoe := (d - d / 1460 + d / 36524 - d / 146096) / 365
  let doy := d - (365 * yoe + yoe / 4 - yoe / 100)
  let mp := (5 * doy + 2) / 153
  let day := doy - (153 * mp + 2) / 5 + 1
  let m := if mp < 10 then mp + 3 else mp - 9
  let y : Int := (yoe : Int) + (era : Int) * 400 + (if m ≤ 2 then 1 else 0)
  (y, m, day)

/-- (year ≥ 1 CE, month 1–12, day) to day number; inverse of
`civilFromDays` on its domain. -/
def daysFromCivil (y : Int) (m d : Nat) : Int :=
  let yy := (y - (if m ≤ 2 then 1 else 0)).toNat
  let era := yy / 400
  let yoe := yy % 400
  let doy := (153 * (if m > 2 then m - 3 else m + 9) + 2) / 5 + d - 1
  let doe := yoe * 365 + yoe / 4 - yoe / 100 + doy
  (era : Int) * 146097 + (doe : Int) - 719468

/-- The `"yyyy-MM"` bucket key of a day number, as an integer month index. -/
def monthIndexOfDay (d : Int) : Int :=
  let c := civilFromDays d
  12 * c.1 + ((c.2.1 : Int) - 1)

def monthAbbrev (m : Nat) : String :=
  (["Jan", "Feb", "Mar", "Apr", "May", "Jun",
    "Jul", "Aug", "Sep", "Oct", "Nov", "Dec"].getD (m - 1) "Jan")

/-- `format(..., "yy")`: the year's last two digits, zero-padded. -/
def twoDigitYear (y : Int) : String :=
  let n := (y % 100).toNat
  (if n < 10 then "0" else "") ++ toString n

/-- `format(parseISO(monthKey), "MMM yy")`, e.g. `"Jun 25"`. -/
def monthLabel (key : Int) : String :=
  monthAbbrev ((key % 12).toNat + 1) ++ " " ++ twoDigitYear (key / 12)

/-! ### Monthly aggregator (src `summary.ts`, `groupInitiativesByMonth`)

Day-granular model: `today.setHours(0,0,0,0)` and the `setHours(0,0,0,0)` on
the copied target date are identities on a day number (see
`groupInitiativesByMonthTodayAfter` below for what the former does to the
caller's `Date` object); `targetDate.getUTCMilliseconds()` — the
milliseconds-of-second component read by the sort comparator — is 0 for
every date sitting on a day boundary, so that sort is a stable sort by a
constant key. -/

structure MonthWork where
  work : ℚ
  initiatives : List Initiative
deriving Repr, DecidableEq, Inhabited

structure InitiativesForMonth where
  name : String
  work : Int
  capacity : ℚ
  initiatives : List Initiative
deriving Repr, DecidableEq, Inhabited

/-- `targetDate.getUTCMilliseconds()` in the day-granular model: every date
lies on a day boundary, so its milliseconds-of-second component is 0. -/
def targetDateGetUTCMilliseconds (_ : Initiative) : Int := 0

/-- Lookup in the `monthlyWork` string-keyed object. -/
def lookupMonth : List (Int × MonthWork) → Int → Option MonthWork
  | [], _ => none
  | (k, w) :: rest, key => if k = key then some w else lookupMonth rest key

/-- `monthlyWork[monthKey].work += initiative.workDays;
monthlyWork[monthKey].initiatives.push(initiative)` (creating the entry
first if absent; a JavaScript object keeps keys in insertion order). -/
def addInitiativeToMonth :
    List (Int × MonthWork) → Int → Initiative → List (Int × MonthWork)
  | [], key, i => [(key, ⟨i.workDays, [i]⟩)]
  | (k, w) :: rest, key, i =>
    if k = key then (k, ⟨w.work + i.workDays, w.initiatives ++ [i]⟩) :: rest
    else (k, w) :: addInitiativeToMonth rest key i

/-- The `initiatives.forEach` body: skip invalid dates, compute the month
key (overdue rolls into the current month), accumulate. -/
def groupStep (today currentMonthKey : Int)
    (acc : List (Int × MonthWork)) (i : Initiative) : List (Int × MonthWork) :=
  match i.targetDate with
  | none => acc
  | some td =>
    let monthKey := if td < today then currentMonthKey else monthIndexOfDay td
    addInitiativeToMonth acc monthKey i

/-- `groupInitiativesByMonth(today, initiatives, teamCapacityPerMonth = 20)`
from `summary.ts`. -/
def groupInitiativesByMonth (today : Int) (initiatives : List Initiative)
    (teamCapacityPerMonth : ℚ := 20) : List InitiativesForMonth :=
  let valid := initiatives.filter (fun i => i.targetDate.isSome)
  let sorted := valid.insertionSort
    (fun a b => targetDateGetUTCMilliseconds a ≤ targetDateGetUTCMilliseconds b)
  let currentMonthKey := monthIndexOfDay today
  let monthlyWork := sorted.foldl (groupStep today currentMonthKey) []
  let keys := (monthlyWork.map Prod.fst).insertionSort (· ≤ ·)
  keys.map (fun monthKey =>
    let mw := (lookupMonth monthlyWork monthKey).getD ⟨0, []⟩
    { name := monthLabel monthKey
      work := round mw.work
      capacity := teamCapacityPerMonth
      initiatives := mw.initiatives })

/-- The bucket key of the specification: the `yyyy-MM` month of the target
date, except that a target date strictly before (midnight-normalized) today
rolls into today's month. -/
def bucketKeySpec (today : Int) (i : Initiative) : Int :=
  match i.targetDate with
  | some td => if td < today then monthIndexOfDay today else monthIndexOfDay td
  | none => 0

/-- Modelled from the spec's description of the Monthly Aggregator: drop
initiatives with an invalid target date, bucket the rest by month key (one
bucket per distinct key, in chronological order), sum the members' workDays
(rounded at output), attach the configured capacity and the member list. -/
def specGroupInitiativesByMonth (today : Int) (initiatives : List Initiative)
    (teamCapacityPerMonth : ℚ := 20) : List InitiativesForMonth :=
  let valid := initiatives.filter (fun i => i.targetDate.isSome)
  let keys := ((valid.map (bucketKeySpec today)).dedup).insertionSort (· ≤ ·)
  keys.map (fun monthKey =>
    let members := valid.filter (fun i => decide (bucketKeySpec today i = monthKey))
    { name := monthLabel monthKey
      work := round ((members.map (fun i => i.workDays)).sum)
      capacity := teamCapacityPerMonth
      initiatives := members })

/-- Models the one in-place mutation of `groupInitiativesByMonth`: the first
statement `today.setHours(0, 0, 0, 0)` executes on the caller's `Date`
object itself, so after the call the caller's `today` holds this value
(milliseconds since epoch, timezone-free model) instead of its original
one. -/
def groupInitiativesByMonthTodayAfter (todayMs : Int) : Int :=
  todayMs - todayMs % 86400000

/-! ### Claim theorems -/

/-! Field-level characterizations of `parseCsvRowToInitiative`, read off the
definition. -/

/-- Fixture: a row still being estimated (estimate 20), with delivery text
numbers present that the estimation status must override. -/
def rowNotEstimated : CsvRow :=
  ⟨"Init A", "In Progress", "Not Estimated", "Acme",
    some 20, some 5, some 4, some 3, some 30, some 20255, some 20290⟩

/-- Fixture: a bulk row (to-do 250 > 200) spanning Monday 2025-06-16 to
Friday 2025-06-20 (5 business days). -/
def rowBigTodo : CsvRow :=
  ⟨"Init B", "In Progress", "", "Acme",
    none, some 250, some 4, none, some 300, some 20255, some 20259⟩

/-- Fixture: an ordinary row with to-do 5 and in-progress 4. -/
def rowPlain : CsvRow :=
  ⟨"Init C", "In Progress", "", "Acme",
    none, some 5, some 4, none, some 30, some 20255, some 20290⟩

def rowDoneMismatch : CsvRow :=
  ⟨"Init D", "In Progress", "", "Acme",
    none, some 5, none, some 15, some 15, some 20255, some 20290⟩

def rowCompleted : CsvRow :=
  ⟨"Init G", "In Progress", "", "Acme",
    none, none, none, some 15, some 15, some 20255, some 20290⟩

def rowAwaiting : CsvRow :=
  ⟨"Init H", "Awaiting Requirements", "", "Acme",
    none, some 5, none, none, some 30, some 20255, some 20290⟩

def rowNegativeEstimate : CsvRow :=
  ⟨"Init E", "Awaiting Requirements", "Not Estimated", "Acme",
    some (-5), none, none, none, none, some 20255, some 20290⟩

def rowInvalidTarget : CsvRow :=
  ⟨"Init F", "In Progress", "", "Acme",
    none, some 5, none, none, some 30, some 20255, none⟩

def headersMissingEstimate : List String :=
  ["summary", "project start", "project target", "delivery status",
   "estimation status", "status", "pm customer"]

def resMissingEstimate : PapaParseResult := ⟨[], some headersMissingEstimate, [rowPlain]⟩

def resOk : PapaParseResult := ⟨[], some requiredColumns, [rowPlain]⟩

instance : IsTotal ScopeDataPoint (fun a b => a.date ≤ b.date) :=
  ⟨fun a b => le_total a.date b.date⟩

instance : IsTrans ScopeDataPoint (fun a b => a.date ≤ b.date) :=
  ⟨fun _ _ _ => le_trans⟩

instance : IsAntisymm ScopeDataPoint (fun a b => a.date < b.date) :=
  ⟨fun _ _ h1 h2 => absurd (lt_trans h1 h2) (lt_irrefl _)⟩

/-- Two snapshots sharing a timestamp but differing in workDone. -/
def snapA : ScopeDataPoint := ⟨0, 100, 0⟩

def snapB : ScopeDataPoint := ⟨0, 100, 10⟩

def snapC : ScopeDataPoint := ⟨0, 100, 20⟩

def snapD : ScopeDataPoint := ⟨1209600000, 100, 50⟩

def creep25 : ScopeDataPoint := ⟨-2160000000, 100, 20⟩

def creep14 : ScopeDataPoint := ⟨-1209600000, 120, 30⟩

def creep7 : ScopeDataPoint := ⟨-604800000, 140, 45⟩

def creep0 : ScopeDataPoint := ⟨0, 160, 60⟩

/-- One initiative pushed onto a month bucket (create-or-update). -/
def pushMW (o : Option MonthWork) (i : Initiative) : MonthWork :=
  match o with
  | none => ⟨i.workDays, [i]⟩
  | some mw => ⟨mw.work + i.workDays, mw.initiatives ++ [i]⟩

/-- A bucket state after pushing a list of initiatives one by one. -/
def mergeMW : Option MonthWork → List Initiative → Option MonthWork
  | o, [] => o
  | o, i :: fl => mergeMW (some (pushMW o i)) fl

def iJune : Initiative :=
  ⟨"June item", some 20269, 5, 15, 3, 20269, some 0, "In Progress", "Acme", 0, 0⟩

def iJuly1 : Initiative :=
  ⟨"July item 1", some 20284, 10, 15, 3, 20284, some 0, "In Progress", "Acme", 0, 0⟩

def iJuly2 : Initiative :=
  ⟨"July item 2", some 20294, 8, 15, 3, 20294, some 0, "In Progress", "Acme", 0, 0⟩

/-! ### Theorems -/

theorem nextWorkingDay_ge (d : Int) : d + 1 ≤ nextWorkingDay d := by
  unfold nextWorkingDay
  split
  · omega
  · split <;> omega

theorem addWorkingDaysFrom_ge (n : Nat) : ∀ d : Int, d ≤ addWorkingDaysFrom d n := by
  induction n with
  | zero => intro d; exact le_refl d
  | succ n ih =>
    intro d
    have h1 := nextWorkingDay_ge d
    have h2 := ih (nextWorkingDay d)
    calc d ≤ nextWorkingDay d := by omega
      _ ≤ addWorkingDaysFrom (nextWorkingDay d) n := h2

theorem addWorkingDays_ge (d : Int) (q : Option ℚ) : d ≤ addWorkingDays d q := by
  unfold addWorkingDays
  match q with
  | none => exact le_refl d
  | some x =>
    by_cases h : x ≤ 0
    · simp [h]
    · simp only [h, if_false]
      exact addWorkingDaysFrom_ge _ d

theorem mapRowsExcept_error_of_mem {normalize : CsvRow → Except String Initiative}
    {rows : List CsvRow} {r : CsvRow} {m : String} (hr : r ∈ rows)
    (he : normalize r = .error m) :
    ∃ e, mapRowsExcept normalize rows = .error e := by
  induction rows with
  | nil => cases hr
  | cons a rs ih =>
    rcases List.mem_cons.mp hr with rfl | hmem
    · exact ⟨m, by simp [mapRowsExcept, he]⟩
    · unfold mapRowsExcept
      match hna : normalize a with
      | .error e => exact ⟨e, rfl⟩
      | .ok i =>
        obtain ⟨e, hrec⟩ := ih hmem
        exact ⟨e, by simp [hrec]⟩

theorem civilFromDays_epoch : civilFromDays 0 = (1970, 1, 1) := by decide

theorem civilFromDays_roundtrip_sample :
    civilFromDays (daysFromCivil 2025 6 16) = (2025, 6, 16) ∧
    civilFromDays (daysFromCivil 2025 7 15) = (2025, 7, 15) ∧
    civilFromDays (daysFromCivil 2024 2 29) = (2024, 2, 29) ∧
    civilFromDays (daysFromCivil 2000 1 1) = (2000, 1, 1) := by decide

theorem addWorkingDays_some (d : Int) (q : ℚ) :
    addWorkingDays d (some q) = if q ≤ 0 then d else addWorkingDaysFrom d (Int.toNat ⌊q⌋) := rfl

/-- C6: `addBusinessDays(d, n)` returns `d` when `n` is NaN (`none`) or
`n ≤ 0`; for positive `n` it counts Monday–Friday days until the counter
reaches `⌊n⌋`, so `addBusinessDays(d, 3.7) = addBusinessDays(d, 3)`, and from
a Friday with `n = 1` it lands on the following Monday (three calendar days
later), never a Saturday or Sunday. -/
theorem addWorkingDays_spec :
    (∀ d : Int, addWorkingDays d none = d) ∧
    (∀ (d : Int) (q : ℚ), q ≤ 0 → addWorkingDays d (some q) = d) ∧
    (∀ d : Int, addWorkingDays d (some (37/10)) = addWorkingDays d (some 3)) ∧
    (∀ d : Int, dayOfWeek d = 5 →
      addWorkingDays d (some 1) = d + 3 ∧ dayOfWeek (d + 3) = 1) := by
  refine ⟨fun d => rfl, fun d q h => by rw [addWorkingDays_some, if_pos h], fun d => ?_,
    fun d h => ?_⟩
  · have h37 : ⌊(37 / 10 : ℚ)⌋ = 3 := by norm_num
    have h3 : ⌊(3 : ℚ)⌋ = 3 := by norm_num
    rw [addWorkingDays_some, addWorkingDays_some, if_neg (by norm_num), if_neg (by norm_num),
      h37, h3]
  · have h1 : dayOfWeek (d + 1) = 6 := by unfold dayOfWeek at *; omega
    have h2 : dayOfWeek (d + 2) = 0 := by unfold dayOfWeek at *; omega
    have h3 : dayOfWeek (d + 3) = 1 := by unfold dayOfWeek at *; omega
    refine ⟨?_, h3⟩
    have hfloor : ⌊(1 : ℚ)⌋ = 1 := by norm_num
    rw [addWorkingDays_some, if_neg (by norm_num), hfloor]
    show addWorkingDaysFrom (nextWorkingDay d) 0 = d + 3
    unfold addWorkingDaysFrom nextWorkingDay
    simp [isWeekday, h1, h2]

/-- C6 witness: day 20259 is Friday 2025-06-20; one business day later is day
20262, Monday 2025-06-23. -/
theorem addWorkingDays_spec_witness :
    addWorkingDays 20259 none = 20259 ∧
    addWorkingDays 20259 (some (-1)) = 20259 ∧
    addWorkingDays 20259 (some (37/10)) = addWorkingDays 20259 (some 3) ∧
    addWorkingDays 20259 (some 1) = 20262 ∧ dayOfWeek 20262 = 1 := by
  have h := addWorkingDays_spec
  have h5 : dayOfWeek 20259 = 5 := by decide
  have hlast := h.2.2.2 20259 h5
  exact ⟨h.1 20259, h.2.1 20259 (-1) (by norm_num), h.2.2.1 20259,
    by rw [hlast.1]; norm_num, by have := hlast.2; norm_num at this ⊢; exact this⟩

theorem parseRow_fields (today : Int) (row : CsvRow) :
    (parseCsvRowToInitiative today row).name = row.summary ∧
    (parseCsvRowToInitiative today row).targetDate = row.projectTarget ∧
    (parseCsvRowToInitiative today row).doneWork = row.doneMatch.getD 0 ∧
    (parseCsvRowToInitiative today row).status = row.status ∧
    (parseCsvRowToInitiative today row).customer = row.pmCustomer := by
  unfold parseCsvRowToInitiative
  dsimp only []
  exact ⟨rfl, rfl, rfl, rfl, rfl⟩

theorem wdtw_eq (today : Int) (row : CsvRow) :
    ((parseCsvRowToInitiative today row).workDays,
     (parseCsvRowToInitiative today row).totalWork) =
    (if row.estimationStatus.toLower = "not estimated" ∨
        row.estimationStatus.toLower = "high level estimate" then
      (((row.estimate.getD 0 : Int) : ℚ), ((row.estimate.getD 0 : Int) : ℚ))
    else if row.todoMatch.getD 0 > 200 then
      (((calculateWorkingDays row.projectStart row.projectTarget : Int) : ℚ),
        row.totalMatch.getD 0)
    else
      (row.todoMatch.getD 0 + (1/2) * row.inProgressMatch.getD 0,
        row.totalMatch.getD 0)) := by
  unfold parseCsvRowToInitiative
  dsimp only []

theorem percentComplete_eq (today : Int) (row : CsvRow) :
    (parseCsvRowToInitiative today row).percentComplete =
      clamp0to100
        (if (parseCsvRowToInitiative today row).totalWork > 0 then
          (((parseCsvRowToInitiative today row).totalWork -
              (parseCsvRowToInitiative today row).workDays) /
            (parseCsvRowToInitiative today row).totalWork) * 100
         else if (parseCsvRowToInitiative today row).workDays = 0 then 100
         else 0) := by
  unfold parseCsvRowToInitiative
  dsimp only []

theorem projectedFinishDate_eq (today : Int) (row : CsvRow) :
    (parseCsvRowToInitiative today row).projectedFinishDate =
      (if row.doneMatch.getD 0 > 0 then
        addWorkingDays today (some (parseCsvRowToInitiative today row).workDays)
       else
        max (addWorkingDays today (some (parseCsvRowToInitiative today row).workDays))
          (row.projectTarget.getD 0)) := by
  unfold parseCsvRowToInitiative
  dsimp only []

theorem onTrackStatus_eq (today : Int) (row : CsvRow) :
    (parseCsvRowToInitiative today row).onTrackStatus =
      (if row.status.toLower.toLower = "awaiting requirements" then some 0
       else if toFixed2Eq (parseCsvRowToInitiative today row).doneWork
             (parseCsvRowToInitiative today row).totalWork ∧
             (parseCsvRowToInitiative today row).totalWork > 0 then some 0
       else
         match row.projectTarget.map
             (fun t =>
               ((t - (parseCsvRowToInitiative today row).projectedFinishDate : Int) : ℚ)) with
         | some v =>
           some
             (if v > (parseCsvRowToInitiative today row).totalWork then
                (parseCsvRowToInitiative today row).totalWork
              else v)
         | none => none) := by
  unfold parseCsvRowToInitiative
  dsimp only []

/-- C1: `parseCsvRowToInitiative` determines `workDays` and `totalWork` by
precedence: an estimation status of "not estimated" or "high level estimate"
forces `workDays = totalWork = estimate` (the `parseInt` of the estimate
field, 0 on parse failure), overriding any text-extracted total; otherwise an
extracted to-do above 200 sets `workDays = countBusinessDays(projectStart,
projectTarget)`, ignoring the extracted to-do and in-progress numbers;
otherwise `workDays = todo + 0.5 · inProgress`. -/
theorem workDays_precedence (today : Int) (row : CsvRow) :
    ((row.estimationStatus.toLower = "not estimated" ∨
      row.estimationStatus.toLower = "high level estimate") →
      (parseCsvRowToInitiative today row).workDays = ((row.estimate.getD 0 : Int) : ℚ) ∧
      (parseCsvRowToInitiative today row).totalWork = ((row.estimate.getD 0 : Int) : ℚ)) ∧
    (¬(row.estimationStatus.toLower = "not estimated" ∨
       row.estimationStatus.toLower = "high level estimate") →
      row.todoMatch.getD 0 > 200 →
      (parseCsvRowToInitiative today row).workDays =
        ((calculateWorkingDays row.projectStart row.projectTarget : Int) : ℚ)) ∧
    (¬(row.estimationStatus.toLower = "not estimated" ∨
       row.estimationStatus.toLower = "high level estimate") →
      ¬ row.todoMatch.getD 0 > 200 →
      (parseCsvRowToInitiative today row).workDays =
        row.todoMatch.getD 0 + (1/2) * row.inProgressMatch.getD 0) := by
  have h := wdtw_eq today row
  refine ⟨fun h1 => ?_, fun h1 h2 => ?_, fun h1 h2 => ?_⟩
  · rw [if_pos h1] at h
    exact ⟨congrArg Prod.fst h, congrArg Prod.snd h⟩
  · rw [if_neg h1, if_pos h2] at h
    exact congrArg Prod.fst h
  · rw [if_neg h1, if_neg h2] at h
    exact congrArg Prod.fst h

unseal String.mapAux in
/-- C1 witness: the three precedence branches at concrete rows. -/
theorem workDays_precedence_witness :
    (parseCsvRowToInitiative 20255 rowNotEstimated).workDays = 20 ∧
    (parseCsvRowToInitiative 20255 rowNotEstimated).totalWork = 20 ∧
    (parseCsvRowToInitiative 20255 rowBigTodo).workDays = 5 ∧
    (parseCsvRowToInitiative 20255 rowPlain).workDays = 7 := by
  have hA := (workDays_precedence 20255 rowNotEstimated).1 (Or.inl (by decide))
  have hB := (workDays_precedence 20255 rowBigTodo).2.1 (by decide)
    (by norm_num [rowBigTodo])
  have hC := (workDays_precedence 20255 rowPlain).2.2 (by decide)
    (by norm_num [rowPlain])
  have hcw : calculateWorkingDays (some 20255) (some 20259) = 5 := by decide
  norm_num [rowNotEstimated, rowBigTodo, rowPlain] at hA hB hC
  rw [hcw] at hB
  norm_num at hB
  exact ⟨hA.1, hA.2, hB, hC⟩

unseal String.mapAux in
theorem toLower_awaiting :
    "awaiting requirements".toLower = "awaiting requirements" := by decide

/-- C3 (amended): when the derived doneWork equals the derived totalWork to
two-decimal precision (the `toFixed(2)` comparison) and totalWork > 0, the
Initiative has onTrackStatus = 0, and percentComplete = 100 holds when
additionally the derived workDays is 0 (percentComplete is computed from
workDays, not doneWork); a row whose status case-insensitively equals
"awaiting requirements" has onTrackStatus = 0 regardless of other fields. -/
theorem completion_forcing (today : Int) (row : CsvRow) :
    (toFixed2Eq (parseCsvRowToInitiative today row).doneWork
        (parseCsvRowToInitiative today row).totalWork = true →
      0 < (parseCsvRowToInitiative today row).totalWork →
      (parseCsvRowToInitiative today row).onTrackStatus = some 0 ∧
      ((parseCsvRowToInitiative today row).workDays = 0 →
        (parseCsvRowToInitiative today row).percentComplete = 100)) ∧
    (row.status.toLower = "awaiting requirements" →
      (parseCsvRowToInitiative today row).onTrackStatus = some 0) := by
  constructor
  · intro h1 h2
    constructor
    · rw [onTrackStatus_eq]
      by_cases hs : row.status.toLower.toLower = "awaiting requirements"
      · rw [if_pos hs]
      · rw [if_neg hs, if_pos ⟨h1, h2⟩]
    · intro hw
      rw [percentComplete_eq, if_pos h2, hw, sub_zero, div_self (ne_of_gt h2), one_mul]
      norm_num [clamp0to100]
  · intro hs
    rw [onTrackStatus_eq, if_pos (by rw [hs]; exact toLower_awaiting)]

unseal String.mapAux in
theorem rowDoneMismatch_totalWork :
    (parseCsvRowToInitiative 20255 rowDoneMismatch).totalWork = 15 := by
  have hw := congrArg Prod.snd (wdtw_eq 20255 rowDoneMismatch)
  rw [if_neg (by decide), if_neg (by norm_num [rowDoneMismatch])] at hw
  norm_num [rowDoneMismatch] at hw
  exact hw

unseal String.mapAux in
theorem rowDoneMismatch_workDays :
    (parseCsvRowToInitiative 20255 rowDoneMismatch).workDays = 5 := by
  have hw := congrArg Prod.fst (wdtw_eq 20255 rowDoneMismatch)
  rw [if_neg (by decide), if_neg (by norm_num [rowDoneMismatch])] at hw
  norm_num [rowDoneMismatch] at hw
  exact hw

unseal String.mapAux in
theorem rowDoneMismatch_doneWork :
    (parseCsvRowToInitiative 20255 rowDoneMismatch).doneWork = 15 := by
  have h := (parseRow_fields 20255 rowDoneMismatch).2.2.1
  norm_num [rowDoneMismatch] at h
  exact h

unseal String.mapAux in
/-- C3 counterexample: a row whose delivery text reads to-do 5, done 15 of 15
story points satisfies the doneWork = totalWork > 0 condition (onTrackStatus
is forced to 0) yet its percentComplete is 200/3, not 100. -/
theorem completion_forcing_counterexample :
    toFixed2Eq (parseCsvRowToInitiative 20255 rowDoneMismatch).doneWork
        (parseCsvRowToInitiative 20255 rowDoneMismatch).totalWork = true ∧
    0 < (parseCsvRowToInitiative 20255 rowDoneMismatch).totalWork ∧
    (parseCsvRowToInitiative 20255 rowDoneMismatch).percentComplete ≠ 100 := by
  refine ⟨?_, ?_, ?_⟩
  · rw [rowDoneMismatch_doneWork, rowDoneMismatch_totalWork]
    simp [toFixed2Eq]
  · rw [rowDoneMismatch_totalWork]; norm_num
  · rw [percentComplete_eq, rowDoneMismatch_totalWork, rowDoneMismatch_workDays]
    norm_num [clamp0to100]

unseal String.mapAux in
theorem rowCompleted_wdtw :
    (parseCsvRowToInitiative 20255 rowCompleted).workDays = 0 ∧
    (parseCsvRowToInitiative 20255 rowCompleted).totalWork = 15 ∧
    (parseCsvRowToInitiative 20255 rowCompleted).doneWork = 15 := by
  have hw := wdtw_eq 20255 rowCompleted
  rw [if_neg (by decide), if_neg (by norm_num [rowCompleted])] at hw
  have h1 := congrArg Prod.fst hw
  have h2 := congrArg Prod.snd hw
  have h3 := (parseRow_fields 20255 rowCompleted).2.2.1
  norm_num [rowCompleted] at h1 h2 h3
  exact ⟨h1, h2, h3⟩

unseal String.mapAux in
/-- C3 witness: a fully-done row (workDays 0, done 15 of 15) gets
onTrackStatus 0 and percentComplete 100; an "Awaiting Requirements" row gets
onTrackStatus 0. -/
theorem completion_forcing_witness :
    (parseCsvRowToInitiative 20255 rowCompleted).onTrackStatus = some 0 ∧
    (parseCsvRowToInitiative 20255 rowCompleted).percentComplete = 100 ∧
    (parseCsvRowToInitiative 20255 rowAwaiting).onTrackStatus = some 0 := by
  obtain ⟨h1, h2, h3⟩ := rowCompleted_wdtw
  have hfix : toFixed2Eq (parseCsvRowToInitiative 20255 rowCompleted).doneWork
      (parseCsvRowToInitiative 20255 rowCompleted).totalWork = true := by
    rw [h2, h3]; simp [toFixed2Eq]
  have hforce := (completion_forcing 20255 rowCompleted).1 hfix (by rw [h2]; norm_num)
  have hawait := (completion_forcing 20255 rowAwaiting).2 (by decide)
  exact ⟨hforce.1, hforce.2 h1, hawait⟩

/-- C4 (amended): whenever the derived totalWork is nonnegative, every
numeric (non-NaN) onTrackStatus is at most totalWork — the explicit clamp
bounds the day count and both zero-forcing rules keep it at 0 ≤ totalWork. -/
theorem onTrackStatus_le_totalWork (today : Int) (row : CsvRow) (v : ℚ)
    (htw : 0 ≤ (parseCsvRowToInitiative today row).totalWork)
    (hv : (parseCsvRowToInitiative today row).onTrackStatus = some v) :
    v ≤ (parseCsvRowToInitiative today row).totalWork := by
  rw [onTrackStatus_eq] at hv
  by_cases h1 : row.status.toLower.toLower = "awaiting requirements"
  · rw [if_pos h1] at hv
    rw [← Option.some.inj hv]
    exact htw
  · rw [if_neg h1] at hv
    by_cases h2 : toFixed2Eq (parseCsvRowToInitiative today row).doneWork
        (parseCsvRowToInitiative today row).totalWork = true ∧
        (parseCsvRowToInitiative today row).totalWork > 0
    · rw [if_pos h2] at hv
      rw [← Option.some.inj hv]
      exact htw
    · rw [if_neg h2] at hv
      cases hT : row.projectTarget with
      | none => rw [hT] at hv; simp at hv
      | some t =>
        rw [hT] at hv
        simp only [Option.map_some'] at hv
        by_cases h3 : ((t - (parseCsvRowToInitiative today row).projectedFinishDate : Int) : ℚ) >
            (parseCsvRowToInitiative today row).totalWork
        · rw [if_pos h3] at hv
          rw [← Option.some.inj hv]
        · rw [if_neg h3] at hv
          rw [← Option.some.inj hv]
          exact le_of_not_lt h3

unseal String.mapAux in
/-- C4 counterexample: estimation status "not estimated" with estimate -5 and
status "Awaiting Requirements" gives totalWork = -5 < 0 = onTrackStatus, so
the claimed bound fails as stated. -/
theorem onTrackStatus_le_totalWork_counterexample :
    (parseCsvRowToInitiative 20255 rowNegativeEstimate).onTrackStatus = some 0 ∧
    (parseCsvRowToInitiative 20255 rowNegativeEstimate).totalWork < 0 := by
  have hw : (parseCsvRowToInitiative 20255 rowNegativeEstimate).totalWork = -5 := by
    have h := congrArg Prod.snd (wdtw_eq 20255 rowNegativeEstimate)
    rw [if_pos (Or.inl (by decide))] at h
    norm_num [rowNegativeEstimate] at h
    exact h
  constructor
  · rw [onTrackStatus_eq, if_pos (by decide)]
  · rw [hw]; norm_num

unseal String.mapAux in
/-- C4 witness: the amended bound applied at a concrete row with
totalWork = 15 and onTrackStatus forced to 0. -/
theorem onTrackStatus_le_totalWork_witness :
    (0 : ℚ) ≤ (parseCsvRowToInitiative 20255 rowDoneMismatch).totalWork := by
  have htw : (0 : ℚ) ≤ (parseCsvRowToInitiative 20255 rowDoneMismatch).totalWork := by
    rw [rowDoneMismatch_totalWork]; norm_num
  have hots : (parseCsvRowToInitiative 20255 rowDoneMismatch).onTrackStatus = some 0 := by
    rw [onTrackStatus_eq, if_neg (by decide), if_pos
      ⟨by rw [rowDoneMismatch_doneWork, rowDoneMismatch_totalWork]; simp [toFixed2Eq],
       by rw [rowDoneMismatch_totalWork]; norm_num⟩]
  exact onTrackStatus_le_totalWork 20255 rowDoneMismatch 0 htw hots

/-- C10: when the project-target field fails to parse and the extracted
doneWork is 0, and today is at or after the epoch, projectedFinishDate is the
valid date addBusinessDays(today, workDays): the invalid target's NaN
timestamp is coerced to 0 by `|| 0`, and the max with a date at or after the
epoch is a no-op. -/
theorem projectedFinishDate_of_invalid_target (today : Int) (row : CsvRow)
    (htarget : row.projectTarget = none) (hdone : row.doneMatch.getD 0 = 0)
    (htoday : 0 ≤ today) :
    (parseCsvRowToInitiative today row).projectedFinishDate =
      addWorkingDays today (some (parseCsvRowToInitiative today row).workDays) := by
  rw [projectedFinishDate_eq, hdone, if_neg (by norm_num), htarget]
  simp only [Option.getD_none]
  exact max_eq_left (le_trans htoday (addWorkingDays_ge today _))

/-- C10 witness: concrete row with an unparseable target date. -/
theorem projectedFinishDate_of_invalid_target_witness :
    (parseCsvRowToInitiative 20255 rowInvalidTarget).projectedFinishDate =
      addWorkingDays 20255 (some (parseCsvRowToInitiative 20255 rowInvalidTarget).workDays) :=
  projectedFinishDate_of_invalid_target 20255 rowInvalidTarget rfl
    (by norm_num [rowInvalidTarget]) (by norm_num)

/-- C5: `parseCsvToInitiatives` reports failure only through its
discriminated result: with required columns missing after header
lower-casing, or zero data rows, it returns the error variant whose message
names the missing columns (and the found headers); and a normalization
exception on any single row (modelled by an `Except`-valued normalizer)
yields the error variant for the whole batch — no partial success.  The
model is a total function, so no exception escapes. -/
theorem parseCsvToInitiatives_error_paths :
    (∀ (today : Int) (res : PapaParseResult) (hs : List String),
      res.errors = [] → res.fields = some hs →
      (res.data = [] ∨ requiredColumns.filter (fun col => ¬ hs.contains col) ≠ []) →
      parseCsvToInitiatives today res =
        .error ("Invalid CSV format. Missing: ["
          ++ String.intercalate ", " (requiredColumns.filter (fun col => ¬ hs.contains col))
          ++ "]. Found: [" ++ String.intercalate ", " hs ++ "]")) ∧
    (∀ (normalize : CsvRow → Except String Initiative) (res : PapaParseResult)
        (r : CsvRow) (m : String),
      r ∈ res.data → normalize r = .error m →
      isErrorResult (parseCsvToInitiativesWith normalize res) = true) := by
  constructor
  · intro today res hs herr hfields hcond
    unfold parseCsvToInitiatives parseCsvToInitiativesWith
    rw [if_neg (by simp [herr])]
    rcases hf : res.fields with _ | hs'
    · rw [hfields] at hf; cases hf
    · rw [hfields] at hf
      injection hf with hf
      subst hf
      dsimp only []
      rw [if_pos]
      rcases hcond with h | h
      · exact Or.inl (by rw [h]; rfl)
      · exact Or.inr (List.length_pos.mpr h)
  · intro normalize res r m hr he
    unfold parseCsvToInitiativesWith
    by_cases h1 : res.errors ≠ []
    · rw [if_pos h1]; rfl
    · rw [if_neg h1]
      rcases hf : res.fields with _ | hs
      · rfl
      · dsimp only []
        by_cases h2 : res.data.length = 0 ∨
            (requiredColumns.filter (fun col => ¬ hs.contains col)).length > 0
        · rw [if_pos h2]; rfl
        · rw [if_neg h2]
          obtain ⟨e, hme⟩ := mapRowsExcept_error_of_mem hr he
          rw [hme]
          rfl

/-- C5 witness: a table whose headers lack "estimate" produces the error
message naming it; a normalizer that throws on the single row aborts the
batch with an error result. -/
theorem parseCsvToInitiatives_error_paths_witness :
    parseCsvToInitiatives 20255 resMissingEstimate =
      .error ("Invalid CSV format. Missing: [estimate]. Found: [summary, project start, project target, delivery status, estimation status, status, pm customer]") ∧
    isErrorResult (parseCsvToInitiativesWith (fun _ => .error "row boom") resOk) = true := by
  constructor
  · have h := parseCsvToInitiatives_error_paths.1 20255 resMissingEstimate
      headersMissingEstimate rfl rfl (Or.inr (by decide))
    rw [h]
    congr 1
  · exact parseCsvToInitiatives_error_paths.2 (fun _ => .error "row boom") resOk rowPlain
      "row boom" (List.mem_singleton_self rowPlain) rfl

theorem sortByDate_eq_of_perm {l l' : List ScopeDataPoint}
    (hpw : l.Pairwise (fun a b => a.date ≠ b.date)) (hperm : l.Perm l') :
    sortByDate l = sortByDate l' := by
  have hpw' : l'.Pairwise (fun a b => a.date ≠ b.date) :=
    hpw.perm hperm (fun h => h.symm)
  have hp : (sortByDate l).Perm (sortByDate l') :=
    (List.perm_insertionSort _ l).trans (hperm.trans (List.perm_insertionSort _ l').symm)
  have hs1le : (sortByDate l).Sorted (fun a b => a.date ≤ b.date) :=
    List.sorted_insertionSort _ l
  have hs2le : (sortByDate l').Sorted (fun a b => a.date ≤ b.date) :=
    List.sorted_insertionSort _ l'
  have hpw1 : (sortByDate l).Pairwise (fun a b => a.date ≠ b.date) :=
    hpw.perm (List.perm_insertionSort _ l).symm (fun h => h.symm)
  have hpw2 : (sortByDate l').Pairwise (fun a b => a.date ≠ b.date) :=
    hpw'.perm (List.perm_insertionSort _ l').symm (fun h => h.symm)
  have hs1 : (sortByDate l).Sorted (fun a b => a.date < b.date) :=
    (hs1le.and hpw1).imp (fun h => lt_of_le_of_ne h.1 h.2)
  have hs2 : (sortByDate l').Sorted (fun a b => a.date < b.date) :=
    (hs2le.and hpw2).imp (fun h => lt_of_le_of_ne h.1 h.2)
  exact List.eq_of_perm_of_sorted hp hs1 hs2

/-- C2 (amended): with fewer than 2 snapshots `calculateProjectedFinishDate`
returns none; otherwise, taking earliest/latest as head/last of the stable
re-sort by timestamp, a work rate ≤ 0 returns none and a positive rate
returns the work rate, remaining work, days remaining and projected finish
date by the stated formulas; the result is permutation-invariant provided no
two snapshots share a timestamp. -/
theorem calculateProjectedFinishDate_spec :
    (∀ l : List ScopeDataPoint, l.length < 2 → calculateProjectedFinishDate l = none) ∧
    (∀ l : List ScopeDataPoint, 2 ≤ l.length →
      (let s := sortByDate l
       let earliest := s.headD default
       let latest := s.getLastD default
       let daysBetween : ℚ := max 1 (((latest.date - earliest.date : Int) : ℚ) / msPerDay)
       let workRatePerDay := (latest.workDone - earliest.workDone) / daysBetween
       (workRatePerDay ≤ 0 → calculateProjectedFinishDate l = none) ∧
       (0 < workRatePerDay →
         calculateProjectedFinishDate l = some
           { projectedFinishDate := (latest.date : ℚ) +
               ((latest.totalScope - latest.workDone) / workRatePerDay) * msPerDay
             workRatePerDay := workRatePerDay
             remainingWork := latest.totalScope - latest.workDone
             daysRemaining := (latest.totalScope - latest.workDone) / workRatePerDay
             earliestDate := earliest.date
             latestDate := latest.date }))) ∧
    (∀ l l' : List ScopeDataPoint,
      l.Pairwise (fun a b => a.date ≠ b.date) → l.Perm l' →
      calculateProjectedFinishDate l = calculateProjectedFinishDate l') := by
  refine ⟨fun l h => ?_, fun l h => ?_, fun l l' hpw hperm => ?_⟩
  · unfold calculateProjectedFinishDate
    rw [if_pos h]
  · refine ⟨fun hrate => ?_, fun hrate => ?_⟩
    · unfold calculateProjectedFinishDate
      rw [if_neg (by omega), projectionFromSorted, if_pos hrate]
    · unfold calculateProjectedFinishDate
      rw [if_neg (by omega), projectionFromSorted, if_neg (not_le.mpr hrate)]
  · have hlen := hperm.length_eq
    unfold calculateProjectedFinishDate
    by_cases hl : l.length < 2
    · rw [if_pos hl, if_pos (by omega)]
    · rw [if_neg hl, if_neg (by omega), sortByDate_eq_of_perm hpw hperm]

/-- C2 counterexample: two snapshots with the same timestamp and workDone 0
and 10 — the two input orders give different results (a projection vs none),
so the result is not invariant under all permutations as claimed. -/
theorem calculateProjectedFinishDate_perm_counterexample :
    [snapA, snapB].Perm [snapB, snapA] ∧
    calculateProjectedFinishDate [snapA, snapB] ≠
      calculateProjectedFinishDate [snapB, snapA] := by
  constructor
  · exact List.Perm.swap snapB snapA []
  · have h1 : calculateProjectedFinishDate [snapA, snapB] ≠ none := by
      unfold calculateProjectedFinishDate projectionFromSorted sortByDate
      norm_num [List.insertionSort, List.orderedInsert, snapA, snapB, msPerDay]
      exact Option.some_ne_none _
    have h2 : calculateProjectedFinishDate [snapB, snapA] = none := by
      unfold calculateProjectedFinishDate projectionFromSorted sortByDate
      norm_num [List.insertionSort, List.orderedInsert, snapB, snapA, msPerDay]
    rw [h2]
    exact h1

/-- C2 witness: one snapshot yields none; the 14-day/30-work-done pair
yields rate 15/7, remaining 50, days remaining 70/3; swapping distinct-dated
snapshots leaves the result unchanged. -/
theorem calculateProjectedFinishDate_spec_witness :
    calculateProjectedFinishDate [snapC] = none ∧
    calculateProjectedFinishDate [snapC, snapD] =
      some ⟨3225600000, 15/7, 50, 70/3, 0, 1209600000⟩ ∧
    calculateProjectedFinishDate [snapD, snapC] =
      calculateProjectedFinishDate [snapC, snapD] := by
  have hsort : sortByDate [snapC, snapD] = [snapC, snapD] := by
    norm_num [sortByDate, List.insertionSort, List.orderedInsert, snapC, snapD]
  refine ⟨?_, ?_, ?_⟩
  · exact calculateProjectedFinishDate_spec.1 [snapC] (by norm_num)
  · have h := (calculateProjectedFinishDate_spec.2.1 [snapC, snapD] (by norm_num))
    rw [hsort] at h
    have h2 := h.2
    norm_num [snapC, snapD, msPerDay] at h2
    exact h2
  · exact (calculateProjectedFinishDate_spec.2.2 [snapD, snapC] [snapC, snapD]
      (by norm_num [snapC, snapD, List.pairwise_cons])
      (List.Perm.swap snapC snapD []))

/-- C7: with fewer than 2 snapshots `calculateScopeCreep` returns none;
otherwise it compares the latest snapshot against the newest non-latest
snapshot whose timestamp is at or before latest − 14 days (a snapshot exactly
14 days earlier qualifies, by `≤`), falling back to the chronologically
earliest, and returns scopeChange = latest.totalScope − comparison.totalScope
and scopeChangePerDay = scopeChange / max(1, days between). -/
theorem calculateScopeCreep_spec :
    (∀ l : List ScopeDataPoint, l.length < 2 → calculateScopeCreep l = none) ∧
    (∀ l : List ScopeDataPoint, 2 ≤ l.length →
      (let s := sortByDate l
       let latest := s.getLastD default
       let cutoff : Int := latest.date - 14 * 24 * 60 * 60 * 1000
       let comparison :=
         (s.dropLast.reverse.find? (fun p => p.date ≤ cutoff)).getD (s.headD default)
       let daysBetween : ℚ := max 1 (((latest.date - comparison.date : Int) : ℚ) / msPerDay)
       calculateScopeCreep l = some
         { scopeChange := latest.totalScope - comparison.totalScope
           scopeChangePerDay := (latest.totalScope - comparison.totalScope) / daysBetween
           comparisonDate := comparison.date
           latestDate := latest.date
           daysBetween := round daysBetween })) := by
  refine ⟨fun l h => ?_, fun l h => ?_⟩
  · unfold calculateScopeCreep
    rw [if_pos h]
  · unfold calculateScopeCreep scopeCreepFromSorted
    rw [if_neg (by omega)]

/-- C7 witness: snapshots 25/14/7/0 days before the reference with
totalScope 100/120/140/160 compare against the snapshot exactly 14 days
prior: scopeChange 40 over 14 days. -/
theorem calculateScopeCreep_spec_witness :
    calculateScopeCreep [creep25] = none ∧
    calculateScopeCreep [creep25, creep14, creep7, creep0] =
      some ⟨40, 20/7, -1209600000, 0, 14⟩ := by
  constructor
  · exact calculateScopeCreep_spec.1 [creep25] (by norm_num)
  · have h := calculateScopeCreep_spec.2 [creep25, creep14, creep7, creep0] (by norm_num)
    have hsort : sortByDate [creep25, creep14, creep7, creep0] =
        [creep25, creep14, creep7, creep0] := by
      norm_num [sortByDate, List.insertionSort, List.orderedInsert, creep25, creep14, creep7,
        creep0]
    rw [hsort] at h
    norm_num [creep25, creep14, creep7, creep0, msPerDay, List.find?, round_eq] at h
    exact h

theorem constSort_eq (l : List Initiative) :
    l.insertionSort
      (fun a b => targetDateGetUTCMilliseconds a ≤ targetDateGetUTCMilliseconds b) = l := by
  induction l with
  | nil => rfl
  | cons a t ih =>
    show List.orderedInsert _ a (List.insertionSort _ t) = a :: t
    rw [ih]
    cases t with
    | nil => rfl
    | cons b t2 => simp [List.orderedInsert, targetDateGetUTCMilliseconds]

theorem lookupMonth_addInitiativeToMonth (acc : List (Int × MonthWork)) (key : Int)
    (i : Initiative) (k : Int) :
    lookupMonth (addInitiativeToMonth acc key i) k =
      if key = k then some (pushMW (lookupMonth acc k) i) else lookupMonth acc k := by
  induction acc with
  | nil =>
    by_cases h : key = k <;> simp [addInitiativeToMonth, lookupMonth, pushMW, h]
  | cons p rest ih =>
    obtain ⟨k', w⟩ := p
    by_cases h1 : k' = key
    · subst h1
      by_cases h2 : k' = k
      · subst h2
        simp [addInitiativeToMonth, lookupMonth, pushMW]
      · simp [addInitiativeToMonth, lookupMonth, h2]
    · by_cases h2 : k' = k
      · subst h2
        have hkk : ¬ (key = k') := fun hh => h1 hh.symm
        simp [addInitiativeToMonth, lookupMonth, h1, hkk]
      · simp [addInitiativeToMonth, lookupMonth, h1, h2, ih]

theorem keys_addInitiativeToMonth (acc : List (Int × MonthWork)) (key : Int) (i : Initiative) :
    (addInitiativeToMonth acc key i).map Prod.fst =
      if key ∈ acc.map Prod.fst then acc.map Prod.fst else acc.map Prod.fst ++ [key] := by
  induction acc with
  | nil => simp [addInitiativeToMonth]
  | cons p rest ih =>
    obtain ⟨k', w⟩ := p
    by_cases h1 : k' = key
    · subst h1
      simp [addInitiativeToMonth]
    · simp only [addInitiativeToMonth, if_neg h1, List.map_cons, List.mem_cons]
      rw [ih]
      by_cases h2 : key ∈ rest.map Prod.fst
      · rw [if_pos h2, if_pos (Or.inr h2)]
      · rw [if_neg h2, if_neg (by rintro (h | h); exact h1 h.symm; exact h2 h)]
        simp

theorem lookupMonth_eq_none_iff (acc : List (Int × MonthWork)) (k : Int) :
    lookupMonth acc k = none ↔ k ∉ acc.map Prod.fst := by
  induction acc with
  | nil => simp [lookupMonth]
  | cons p rest ih =>
    obtain ⟨k', w⟩ := p
    by_cases h : k' = k
    · subst h
      simp [lookupMonth]
    · simp [lookupMonth, h, ih, Ne.symm h]

theorem groupStep_eq (today : Int) (acc : List (Int × MonthWork)) (i : Initiative)
    (h : i.targetDate.isSome) :
    groupStep today (monthIndexOfDay today) acc i =
      addInitiativeToMonth acc (bucketKeySpec today i) i := by
  rcases ht : i.targetDate with _ | td
  · rw [ht] at h; cases h
  · unfold groupStep bucketKeySpec
    rw [ht]

theorem mergeMW_some (fl : List Initiative) : ∀ mw : MonthWork,
    mergeMW (some mw) fl =
      some ⟨mw.work + (fl.map (fun i => i.workDays)).sum, mw.initiatives ++ fl⟩ := by
  induction fl with
  | nil => intro mw; simp [mergeMW]
  | cons i fl ih =>
    intro mw
    show mergeMW (some (pushMW (some mw) i)) fl = _
    rw [ih]
    simp [pushMW, add_assoc]

theorem mergeMW_none (fl : List Initiative) (hne : fl ≠ []) :
    mergeMW none fl = some ⟨(fl.map (fun i => i.workDays)).sum, fl⟩ := by
  cases fl with
  | nil => exact absurd rfl hne
  | cons i fl =>
    show mergeMW (some (pushMW none i)) fl = _
    rw [mergeMW_some]
    simp [pushMW]

theorem mergeMW_eq_none_iff (o : Option MonthWork) (fl : List Initiative) :
    mergeMW o fl = none ↔ o = none ∧ fl = [] := by
  cases o with
  | some mw =>
    cases fl with
    | nil => simp [mergeMW]
    | cons i fl => rw [show mergeMW (some mw) (i :: fl) = _ from rfl, mergeMW_some]; simp
  | none =>
    cases fl with
    | nil => simp [mergeMW]
    | cons i fl => rw [mergeMW_none _ (by simp)]; simp

theorem lookupMonth_foldl_groupStep (today : Int) (k : Int) :
    ∀ (l : List Initiative) (acc : List (Int × MonthWork)),
      (∀ i ∈ l, i.targetDate.isSome) →
      lookupMonth (l.foldl (groupStep today (monthIndexOfDay today)) acc) k =
        mergeMW (lookupMonth acc k)
          (l.filter (fun i => decide (bucketKeySpec today i = k))) := by
  intro l
  induction l with
  | nil => intro acc _; simp [mergeMW]
  | cons i l ih =>
    intro acc hv
    have hi : i.targetDate.isSome := hv i (List.mem_cons_self i l)
    have hl : ∀ j ∈ l, j.targetDate.isSome := fun j hj => hv j (List.mem_cons_of_mem i hj)
    show lookupMonth (l.foldl (groupStep today (monthIndexOfDay today))
        (groupStep today (monthIndexOfDay today) acc i)) k = _
    rw [groupStep_eq today acc i hi, ih _ hl, lookupMonth_addInitiativeToMonth]
    by_cases hk : bucketKeySpec today i = k
    · rw [if_pos hk, List.filter_cons_of_pos (by simp [hk])]
      rfl
    · rw [if_neg hk, List.filter_cons_of_neg (by simp [hk])]

theorem keys_foldl_nodup (today : Int) :
    ∀ (l : List Initiative) (acc : List (Int × MonthWork)),
      (acc.map Prod.fst).Nodup →
      (((l.foldl (groupStep today (monthIndexOfDay today)) acc)).map Prod.fst).Nodup := by
  intro l
  induction l with
  | nil => intro acc h; exact h
  | cons i l ih =>
    intro acc h
    apply ih
    rcases ht : i.targetDate with _ | td
    · show ((groupStep today (monthIndexOfDay today) acc i).map Prod.fst).Nodup
      unfold groupStep
      rw [ht]
      exact h
    · show ((groupStep today (monthIndexOfDay today) acc i).map Prod.fst).Nodup
      rw [groupStep_eq today acc i (by rw [ht]; rfl), keys_addInitiativeToMonth]
      by_cases hmem : bucketKeySpec today i ∈ acc.map Prod.fst
      · rw [if_pos hmem]; exact h
      · rw [if_neg hmem]
        simp [List.nodup_append, h, hmem]

theorem groupInitiativesByMonth_eq_spec_aux (today : Int) (initiatives : List Initiative)
    (cap : ℚ) :
    groupInitiativesByMonth today initiatives cap =
      specGroupInitiativesByMonth today initiatives cap := by
  simp only [groupInitiativesByMonth, specGroupInitiativesByMonth]
  rw [constSort_eq]
  set valid := initiatives.filter (fun i => i.targetDate.isSome) with hv
  have hval : ∀ i ∈ valid, i.targetDate.isSome := fun i hi => (List.mem_filter.mp hi).2
  have hlookup : ∀ k, lookupMonth
      (valid.foldl (groupStep today (monthIndexOfDay today)) []) k =
      mergeMW none (valid.filter (fun i => decide (bucketKeySpec today i = k))) := by
    intro k
    rw [lookupMonth_foldl_groupStep today k valid [] hval]
    rfl
  have hmem : ∀ k, k ∈ (valid.foldl (groupStep today (monthIndexOfDay today)) []).map
      Prod.fst ↔ k ∈ valid.map (bucketKeySpec today) := by
    intro k
    constructor
    · intro hk
      rcases hx : valid.filter (fun i => decide (bucketKeySpec today i = k)) with _ | ⟨a, fl⟩
      · exfalso
        have hnone : lookupMonth
            (valid.foldl (groupStep today (monthIndexOfDay today)) []) k = none := by
          rw [hlookup k, hx]; rfl
        exact ((lookupMonth_eq_none_iff _ _).mp hnone) hk
      · have hmemf : a ∈ valid.filter (fun i => decide (bucketKeySpec today i = k)) := by
          rw [hx]; exact List.mem_cons_self a fl
        have ha : a ∈ valid := List.mem_of_mem_filter hmemf
        have hpa := List.of_mem_filter hmemf
        exact List.mem_map.mpr ⟨a, ha, by simpa using hpa⟩
    · intro hk
      rcases List.mem_map.mp hk with ⟨a, ha, hak⟩
      have hfil : valid.filter (fun i => decide (bucketKeySpec today i = k)) ≠ [] := by
        intro h0
        rw [List.filter_eq_nil_iff] at h0
        exact h0 a ha (by simp [hak])
      have hne : lookupMonth
          (valid.foldl (groupStep today (monthIndexOfDay today)) []) k ≠ none := by
        rw [hlookup k, Ne, mergeMW_eq_none_iff]
        rintro ⟨-, h⟩
        exact hfil h
      by_contra hnot
      exact hne ((lookupMonth_eq_none_iff _ _).mpr hnot)
  haveI : IsAntisymm Int (fun x1 x2 : Int => x1 ≤ x2) := ⟨fun _ _ => le_antisymm⟩
  have hkeys : (((valid.foldl (groupStep today (monthIndexOfDay today)) []).map
        Prod.fst).insertionSort (· ≤ ·)) =
      (((valid.map (bucketKeySpec today)).dedup).insertionSort (· ≤ ·)) := by
    apply List.eq_of_perm_of_sorted (r := fun x1 x2 : Int => x1 ≤ x2)
    · refine ((List.perm_insertionSort _ _).trans ?_).trans
        (List.perm_insertionSort _ _).symm
      refine (List.perm_ext_iff_of_nodup ?_ ?_).mpr ?_
      · exact keys_foldl_nodup today valid [] (by simp)
      · exact List.nodup_dedup _
      · intro k
        rw [List.mem_dedup]
        exact hmem k
    · exact List.sorted_insertionSort _ _
    · exact List.sorted_insertionSort _ _
  rw [hkeys]
  apply List.map_congr_left
  intro k hk
  have hkmem : k ∈ valid.map (bucketKeySpec today) :=
    List.mem_dedup.mp ((List.perm_insertionSort _ _).mem_iff.mp hk)
  rcases List.mem_map.mp hkmem with ⟨a, ha, hak⟩
  have hfil : valid.filter (fun i => decide (bucketKeySpec today i = k)) ≠ [] := by
    intro h0
    rw [List.filter_eq_nil_iff] at h0
    exact h0 a ha (by simp [hak])
  rw [hlookup k, mergeMW_none _ hfil]
  simp

theorem monthLabel_jun : monthLabel 24305 = "Jun 25" := by decide

theorem monthLabel_jul : monthLabel 24306 = "Jul 25" := by decide

theorem groupInitiativesByMonth_example :
    groupInitiativesByMonth 20255 [iJune, iJuly1, iJuly2] 30 =
      [⟨"Jun 25", 5, 30, [iJune]⟩, ⟨"Jul 25", 18, 30, [iJuly1, iJuly2]⟩] := by
  have hkey1 : monthIndexOfDay 20269 = 24305 := by decide
  have hkey2 : monthIndexOfDay 20284 = 24306 := by decide
  have hkey3 : monthIndexOfDay 20294 = 24306 := by decide
  have hkeyt : monthIndexOfDay 20255 = 24305 := by decide
  rw [groupInitiativesByMonth_eq_spec_aux]
  norm_num [specGroupInitiativesByMonth, iJune, iJuly1, iJuly2, bucketKeySpec,
    hkey1, hkey2, hkey3, hkeyt, List.dedup_cons_of_not_mem, List.dedup_cons_of_mem,
    List.insertionSort, List.orderedInsert, List.filter_cons, monthLabel_jun, monthLabel_jul,
    round_eq]

/-- C8: `groupInitiativesByMonth` equals the specification aggregation: drop
invalid target dates, bucket by target month with overdue items rolled into
today's month, one bucket per distinct month in chronological order, each
bucket carrying its label, the rounded workDays sum of its members, the
supplied capacity and the member list; and the concrete June/July example
(workDays 5 in June; 10 and 8 in July, capacity 30) yields exactly two
buckets with work 5 and 18. -/
theorem groupInitiativesByMonth_spec :
    (∀ (today : Int) (initiatives : List Initiative) (cap : ℚ),
      groupInitiativesByMonth today initiatives cap =
        specGroupInitiativesByMonth today initiatives cap) ∧
    groupInitiativesByMonth 20255 [iJune, iJuly1, iJuly2] 30 =
      [⟨"Jun 25", 5, 30, [iJune]⟩, ⟨"Jul 25", 18, 30, [iJuly1, iJuly2]⟩] :=
  ⟨groupInitiativesByMonth_eq_spec_aux, groupInitiativesByMonth_example⟩

/-- C9: the one in-place mutation of `groupInitiativesByMonth` — the caller's
`today` Date does not keep its time of day: `today.setHours(0, 0, 0, 0)` on
the first line truncates the caller's own Date object to midnight.  At
10:30:00 local time on 2025-06-16 (ms timestamp 20255·86400000 + 37800000)
the caller's Date afterwards holds the midnight timestamp instead. -/
theorem groupInitiativesByMonth_mutates_today :
    groupInitiativesByMonthTodayAfter (20255 * 86400000 + 37800000) =
      20255 * 86400000 ∧
    groupInitiativesByMonthTodayAfter (20255 * 86400000 + 37800000) ≠
      20255 * 86400000 + 37800000 := by
  constructor <;> decide
